import Mathlib

/-!
Verification of the TimeStitch transcript-search pipeline.

The repository contains several near-duplicate Python implementations of the
same pipeline (a Streamlit app `app.py`, a FastAPI app `api/search.py`, and
two service variants `api/app/` and `backend/app/`).  The definitions below
are shallow embeddings of the relevant Python functions.  Python strings are
modelled as `List Char`, `str.lower` as `Char.toLower` mapping, the substring
operator `in` as contiguous-sublist containment, dictionaries returned by the
external YouTube API as structures with `Option` fields (a missing key giving
`none`), and the external network as explicit function or data parameters.
Timestamps (`start` fields, which are floats in Python) are carried through
untouched, so they are modelled by an arbitrary type parameter.
-/

/-- One timed transcript segment, as produced by the transcript provider:
a dict with a `text` field and a `start` offset (the `duration` field is
never read by the code under verification).  `α` is the type of the `start`
value, which the code only passes through. -/
structure TranscriptSegment (α : Type) where
  text : List Char
  start : α
deriving DecidableEq

/-- A keyword match as built by `search_in_transcript`: the matching
segment's `start` and `text` plus the neighbouring segment texts. -/
structure MatchResult (α : Type) where
  start : α
  text : List Char
  context_before : List Char
  context_after : List Char
deriving DecidableEq

/-- Model of Python `str.lower()` (character-wise lowercasing). -/
def pyLower (s : List Char) : List Char :=
  s.map Char.toLower

/-- Model of Python `needle in haystack` for strings: `true` iff `needle`
occurs as a contiguous substring of `haystack` (the empty string occurs in
every string, as in Python). -/
def listContains (haystack needle : List Char) : Bool :=
  needle.isPrefixOf haystack ||
    match haystack with
    | [] => false
    | _ :: t => listContains t needle

/-- Text of `transcript[j]`, used for the context lookups `transcript[i-1]`
and `transcript[i+1]`; the code only evaluates them under bounds guards, so
the `none` default is never reached on guarded indices. -/
def segment_text_at {α : Type} (t : List (TranscriptSegment α)) (j : Nat) : List Char :=
  match t[j]? with
  | some s => s.text
  | none => []

/-- Embedding of `search_in_transcript` (identical in `app.py`,
`api/app/services/youtube.py`, `api/search.py` and
`backend/app/services/youtube.py`):

    matches = []
    keyword_lower = keyword.lower()
    for i, segment in enumerate(transcript):
        if keyword_lower in segment['text'].lower():
            matches.append({
                "start": segment['start'],
                "text": segment['text'],
                "context_before": transcript[i-1]['text'] if i > 0 else "",
                "context_after": transcript[i+1]['text'] if i < len(transcript) - 1 else ""})
    return matches

`enumerate(transcript)` yields `(i, transcript[i])` for `i` in
`range(len(transcript))`; the conditional append is a `filterMap`. -/
def search_in_transcript {α : Type} (transcript : List (TranscriptSegment α))
    (keyword : List Char) : List (MatchResult α) :=
  let keyword_lower := pyLower keyword
  (List.range transcript.length).filterMap fun i =>
    match transcript[i]? with
    | none => none
    | some segment =>
      if listContains (pyLower segment.text) keyword_lower then
        some { start := segment.start
             , text := segment.text
             , context_before := if 0 < i then segment_text_at transcript (i - 1) else []
             , context_after :=
                 if i < transcript.length - 1 then segment_text_at transcript (i + 1) else [] }
      else none

/-- Embedding of the legacy matcher in `youtube-transcript-searcher/app.py`:
it returns the matching segments themselves (no context fields), guards the
empty transcript and the empty keyword, and matches with a case-insensitive
regex built from `re.escape(keyword)`, which is exactly case-insensitive
substring search. -/
def search_in_transcript_yts {α : Type} (transcript : List (TranscriptSegment α))
    (keyword : List Char) : List (TranscriptSegment α) :=
  if transcript.isEmpty || keyword.isEmpty then []
  else transcript.filter fun segment => listContains (pyLower segment.text) (pyLower keyword)

/-- The Keyword Matcher as the specification words it: one MatchResult per
matching position `i`, with `context_before = segment[i-1].text` (empty
string when `i = 0`) and `context_after = segment[i+1].text` (empty string
when `i` is the last index). -/
def keyword_matcher_per_spec {α : Type} (transcript : List (TranscriptSegment α))
    (keyword : List Char) : List (MatchResult α) :=
  (List.range transcript.length).filterMap fun i =>
    match transcript[i]? with
    | none => none
    | some segment =>
      if listContains (pyLower segment.text) (pyLower keyword) then
        some { start := segment.start
             , text := segment.text
             , context_before := if i = 0 then [] else segment_text_at transcript (i - 1)
             , context_after :=
                 if i = transcript.length - 1 then [] else segment_text_at transcript (i + 1) }
      else none

/-- One item of a `playlistItems.list` response page, as read by the listers:
`contentDetails.videoId`, `snippet.publishedAt`, `snippet.title` and the
high-resolution thumbnail URL, each obtained with `.get` and therefore
possibly absent. -/
structure RawItem where
  videoId : Option (List Char)
  publishedAt : Option (List Char)
  title : Option (List Char)
  thumbnail : Option (List Char)
deriving DecidableEq

/-- A video dict as built by the service variants' `fetch_videos`: the four
fields are copied verbatim, so each may be `None`. -/
structure VideoDict where
  id : Option (List Char)
  title : Option (List Char)
  publishedAt : Option (List Char)
  thumbnail : Option (List Char)
deriving DecidableEq

/-- The dict appended by `fetch_videos` for one page item (missing source
fields stay `None`). -/
def mapRawItem (item : RawItem) : VideoDict :=
  { id := item.videoId
  , title := item.title
  , publishedAt := item.publishedAt
  , thumbnail := item.thumbnail }

/-- A `SearchResult` as assembled by the routers.  The first four fields are
copied from the video dict (so they are modelled with the same `Option`
types), `matches` is the Keyword Matcher's output. -/
structure SearchResultR (α : Type) where
  video_id : Option (List Char)
  title : Option (List Char)
  published_at : Option (List Char)
  thumbnail : Option (List Char)
  matches_list : List (MatchResult α)
deriving DecidableEq

/-- Embedding of the per-video aggregation loop shared by
`backend/app/routers/search.py` and `api/search.py` (after its date filter):

    results = []
    for video in videos:
        transcript = service.get_transcript(video["id"])
        if transcript:
            matches = service.search_in_transcript(transcript, keyword)
            if matches:
                results.append(SearchResult(video_id=video["id"], ..., matches=matches))
    return results

`get_transcript` performs network traffic and is passed in as a function
(the service returns `[]` on every failure, so only the returned segment
list matters). -/
def collect_results {α : Type} (get_transcript : Option (List Char) → List (TranscriptSegment α))
    (videos : List VideoDict) (keyword : List Char) : List (SearchResultR α) :=
  videos.filterMap fun video =>
    let transcript := get_transcript video.id
    if transcript.isEmpty then none
    else
      let found := search_in_transcript transcript keyword
      if found.isEmpty then none
      else
        some { video_id := video.id
             , title := video.title
             , published_at := video.publishedAt
             , thumbnail := video.thumbnail
             , matches_list := found }

/-- URL-safe channel-id characters: the regex class `[a-zA-Z0-9_-]`. -/
def isUrlSafe (c : Char) : Bool :=
  ('a' ≤ c && c ≤ 'z') || ('A' ≤ c && c ≤ 'Z') || ('0' ≤ c && c ≤ '9') || c == '_' || c == '-'

/-- Characters of a handle or vanity name: the regex class `[a-zA-Z0-9_.-]`. -/
def isNameChar (c : Char) : Bool :=
  isUrlSafe c || c == '.'

/-- The literal `youtube.com/` that starts every URL pattern in the resolver. -/
def ytDomainSlash : List Char :=
  ['y', 'o', 'u', 't', 'u', 'b', 'e', '.', 'c', 'o', 'm', '/']

/-- The literal `youtube.com/channel/`. -/
def ytChannelSeg : List Char :=
  ytDomainSlash ++ ['c', 'h', 'a', 'n', 'n', 'e', 'l', '/']

/-- The literal `youtube.com/c/`. -/
def ytCSeg : List Char :=
  ytDomainSlash ++ ['c', '/']

/-- The literal `youtube.com/user/`. -/
def ytUserSeg : List Char :=
  ytDomainSlash ++ ['u', 's', 'e', 'r', '/']

/-- Does `t` consist of `UC` followed by exactly 22 URL-safe characters?
This is the body shared by the anchored pattern of step 1 and the capture
group of step 2 of the resolver. -/
def isChannelIdCore (t : List Char) : Bool :=
  t.length == 24 && t.take 2 == ['U', 'C'] && (t.drop 2).all isUrlSafe

/-- Model of Python `re.match(r"^UC[a-zA-Z0-9_-]{22}$", s)` being truthy.
In Python `$` also matches just before one trailing newline, hence the
second disjunct. -/
def matches_channel_id_pattern (s : List Char) : Bool :=
  isChannelIdCore s ||
    (match s.getLast? with
     | some c => c == '\n' && isChannelIdCore s.dropLast
     | none => false)

/-- Leftmost-match scan of `re.search`: try the single-position matcher
`tryAt` at every start position, leftmost first. -/
def re_search_first (tryAt : List Char → Option (List Char)) : List Char → Option (List Char)
  | [] => tryAt []
  | c :: rest =>
    match tryAt (c :: rest) with
    | some r => some r
    | none => re_search_first tryAt rest

/-- Single-position matcher for `youtube\.com/channel/(UC[a-zA-Z0-9_-]{22})`:
the literal segment followed by a 24-character channel id; returns the
capture group. -/
def try_channel_url_at (s : List Char) : Option (List Char) :=
  if ytChannelSeg.isPrefixOf s then
    let cid := (s.drop ytChannelSeg.length).take 24
    if isChannelIdCore cid then some cid else none
  else none

/-- The capture `([a-zA-Z0-9_.-]+)`: the maximal run of name characters,
failing when it is empty (the regex `+` needs at least one). -/
def grabRun (t : List Char) : Option (List Char) :=
  let h := t.takeWhile isNameChar
  if h.isEmpty then none else some h

/-- Single-position matcher for `(?:youtube\.com/)?@([a-zA-Z0-9_.-]+)` (the
handle step of the `api` and `backend` resolvers): an optional
`youtube.com/` prefix, an `@`, then a non-empty name run. -/
def try_handle_at (s : List Char) : Option (List Char) :=
  if (ytDomainSlash ++ ['@']).isPrefixOf s then grabRun (s.drop (ytDomainSlash.length + 1))
  else
    match s with
    | '@' :: rest => grabRun rest
    | _ => none

/-- Single-position matcher for `youtube\.com/(?:c|user)/([a-zA-Z0-9_.-]+)`. -/
def try_vanity_at (s : List Char) : Option (List Char) :=
  if ytCSeg.isPrefixOf s then grabRun (s.drop ytCSeg.length)
  else if ytUserSeg.isPrefixOf s then grabRun (s.drop ytUserSeg.length)
  else none

/-- Embedding of `resolve_channel_id` (`api/app/services/youtube.py`,
`api/search.py`; the `backend` variant differs only in steps 3 and 5 and
`app.py` only in step 3, none of which the claims depend on).  The remote
name lookup is the parameter `lookup`; the second component of the result
records the queries sent to it, so an empty second component means the
resolution performed no network lookup. -/
def resolve_channel_id (lookup : List Char → Option (List Char)) (input : List Char) :
    Option (List Char) × List (List Char) :=
  if input.isEmpty then (none, [])
  else if matches_channel_id_pattern input then (some input, [])
  else
    match re_search_first try_channel_url_at input with
    | some cid => (some cid, [])
    | none =>
      match re_search_first try_handle_at input with
      | some h => (lookup h, [h])
      | none =>
        match re_search_first try_vanity_at input with
        | some name => (lookup name, [name])
        | none => (lookup input, [input])

/-- Outcome of the remote channel-typed search call made by the name/handle
lookup: a (possibly empty) item list, an HTTP error, or any other
exception raised by the transport. -/
inductive SearchOutcome where
  | items (channelIds : List (List Char))
  | httpError
  | otherError
deriving DecidableEq

/-- The two exception classes the Streamlit lookup can raise: the
`ValueError` for a missing API key and the `YouTubeChannelError` wrapper. -/
inductive ResolveError where
  | configError
  | channelError
deriving DecidableEq

/-- Embedding of `_resolve_name_to_channel_id_sync` (`app.py`):

    if not api_key:
        raise ValueError("YouTube API Key is not configured.")
    try:
        search_response = youtube.search().list(...).execute()
        if search_response.get("items"):
            return items[0]["snippet"]["channelId"]
        else:
            return None
    except HttpError as e:
        raise YouTubeChannelError(...) from e
    except Exception as e:
        raise YouTubeChannelError(...) from e
-/
def resolve_name_to_channel_id_sync (api_key : List Char) (outcome : SearchOutcome) :
    Except ResolveError (Option (List Char)) :=
  if api_key.isEmpty then Except.error ResolveError.configError
  else
    match outcome with
    | SearchOutcome.items (c :: _) => Except.ok (some c)
    | SearchOutcome.items [] => Except.ok none
    | SearchOutcome.httpError => Except.error ResolveError.channelError
    | SearchOutcome.otherError => Except.error ResolveError.channelError

/-- Embedding of `_resolve_name_to_channel_id` (`api/app/services/youtube.py`,
`api/search.py`, `backend/app/services/youtube.py`): the same call inside
`try: ... except Exception: return None`, with no API-key check of its own. -/
def resolve_name_to_channel_id_service (outcome : SearchOutcome) : Option (List Char) :=
  match outcome with
  | SearchOutcome.items (c :: _) => some c
  | SearchOutcome.items [] => none
  | SearchOutcome.httpError => none
  | SearchOutcome.otherError => none

/-- A `(video_id, published_at, title)` triple as produced by
`_fetch_video_details_page` in `app.py`. -/
abbrev VideoDetail := List Char × List Char × List Char

/-- Python truthiness of an optional string: `False` for a missing key
(`None`) and for the empty string. -/
def truthyStr : Option (List Char) → Bool
  | none => false
  | some s => !s.isEmpty

/-- Embedding of the item loop of `_fetch_video_details_page` (`app.py`):

    for item in response.get('items', []):
        video_id = item.get('contentDetails', {}).get('videoId')
        published_at = snippet.get('publishedAt')
        title = snippet.get('title')
        if video_id and published_at and title:
            video_details.append((video_id, published_at, title))
-/
def fetch_video_details_page (items : List RawItem) : List VideoDetail :=
  items.filterMap fun item =>
    if truthyStr item.videoId && truthyStr item.publishedAt && truthyStr item.title then
      some (item.videoId.getD [], item.publishedAt.getD [], item.title.getD [])
    else none

/-- Embedding of the pagination loop of `fetch_all_video_details` (`app.py`).
The platform is modelled as the finite list of page results the successive
`_fetch_video_details_page` calls return (`pages`); a continuation token is
reported exactly when further pages remain.  Mirrors:

    while True:
        details_page, next_page_token = _fetch_video_details_page(...)
        all_details.extend(details_page)
        if len(all_details) >= max_videos: break
        if not next_page_token: break

(The retry wrapper around the page call only re-runs a failing page and is
invisible to the accumulated value.) -/
def fetch_all_video_details_go {β : Type} (max_videos : Nat) :
    List (List β) → List β → List β
  | [], acc => acc
  | page :: rest, acc =>
    if max_videos ≤ (acc ++ page).length then acc ++ page
    else if rest.isEmpty then acc ++ page
    else fetch_all_video_details_go max_videos rest (acc ++ page)

/-- The final truncation `all_details[:max_videos]` of
`fetch_all_video_details`. -/
def fetch_all_video_details {β : Type} (max_videos : Nat) (pages : List (List β)) : List β :=
  (fetch_all_video_details_go max_videos pages []).take max_videos

/-- Embedding of the pagination loop of `fetch_videos`
(`api/app/services/youtube.py`, `api/search.py`,
`backend/app/services/youtube.py`).  The platform is modelled as the
playlist's item stream `remaining`: a request with
`maxResults = min(50, max_videos - len(videos))` returns the next that-many
items (the API honours `maxResults`) and a continuation token exactly when
items remain.  Mirrors:

    while len(videos) < max_videos:
        response = ...playlistItems().list(maxResults=min(50, max_videos - len(videos)),
                                           pageToken=next_page_token).execute()
        for item in response.get('items', []): videos.append({...})
        next_page_token = response.get('nextPageToken')
        if not next_page_token: break
    return videos

Note: there is no final truncation in this variant. -/
def fetch_videos_go (max_videos : Nat) (remaining : List RawItem) (videos : List VideoDict) :
    List VideoDict :=
  if h1 : max_videos ≤ videos.length then videos
  else
    if h2 : (remaining.drop (min 50 (max_videos - videos.length))).isEmpty then
      videos ++ (remaining.take (min 50 (max_videos - videos.length))).map mapRawItem
    else
      fetch_videos_go max_videos (remaining.drop (min 50 (max_videos - videos.length)))
        (videos ++ (remaining.take (min 50 (max_videos - videos.length))).map mapRawItem)
termination_by remaining.length
decreasing_by
  have hne : remaining.drop (min 50 (max_videos - videos.length)) ≠ [] := by
    intro he
    exact h2 (by simp [he])
  have hk : 1 ≤ min 50 (max_videos - videos.length) := le_min (by omega) (by omega)
  have hlen := List.length_drop (min 50 (max_videos - videos.length)) remaining
  have h0 : (remaining.drop (min 50 (max_videos - videos.length))).length ≠ 0 := by
    intro h
    exact hne (List.length_eq_zero.mp h)
  omega

/-- Entry point of `fetch_videos`: the loop starts with an empty
accumulator. -/
def fetch_videos (max_videos : Nat) (stream : List RawItem) : List VideoDict :=
  fetch_videos_go max_videos stream []

/-- Embedding of the per-video date-filter loop of `process_channel_search`
(`app.py`), with the external `datetime.fromisoformat` modelled as the
function `parse` (`none` = `ValueError`) and the datetime order as `leq`:

    for video_id, pub_date_str, title in all_video_details:
        try:
            pub_date = datetime.fromisoformat(pub_date_str.replace("Z", "+00:00"))
            if start_date <= pub_date <= end_date:
                filtered_videos.append((video_id, pub_date_str, title))
        except ValueError:
            warnings.append(f"... Could not parse publish date ...")

Returns the pair (filtered_videos, warnings); a warning is modelled as the
`(video_id, pub_date_str)` pair it is formatted from. -/
def app_date_filter {τ : Type} (parse : List Char → Option τ) (leq : τ → τ → Bool)
    (start_date end_date : τ) :
    List VideoDetail → List VideoDetail × List (List Char × List Char)
  | [] => ([], [])
  | v :: rest =>
    let acc := app_date_filter parse leq start_date end_date rest
    match parse v.2.1 with
    | some pub =>
      (if leq start_date pub && leq pub end_date then v :: acc.1 else acc.1, acc.2)
    | none => (acc.1, (v.1, v.2.1) :: acc.2)

/-- The two exception classes the API date-filter comprehension can raise
per element: `ValueError` from `fromisoformat` on a present but malformed
timestamp string, and `AttributeError` from `None.replace(...)` when
`publishedAt` is `None`.  Only the former is caught by the surrounding
`except ValueError` handler. -/
inductive PyDateError where
  | valueError
  | attributeError
deriving DecidableEq

/-- The list comprehension inside the date filter of `api/search.py` and
`api/app/routers/search.py`:

    [v for v in videos
       if datetime.fromisoformat(v['publishedAt'].replace('Z', '+00:00')) >= cutoff_date]

Python evaluates it element by element and the first failure raises out of
the whole comprehension: a `None` timestamp raises `AttributeError` from
`None.replace(...)`, a present but malformed one raises `ValueError` from
`fromisoformat` (modelled by `parse` returning `none` on the string). -/
def api_filter_comprehension {τ : Type} (parse : List Char → Option τ) (leq : τ → τ → Bool)
    (cutoff : τ) : List VideoDict → Except PyDateError (List VideoDict)
  | [] => Except.ok []
  | v :: rest =>
    match v.publishedAt with
    | none => Except.error PyDateError.attributeError
    | some s =>
      match parse s with
      | none => Except.error PyDateError.valueError
      | some pub =>
        match api_filter_comprehension parse leq cutoff rest with
        | Except.error e => Except.error e
        | Except.ok tail => Except.ok (if leq cutoff pub then v :: tail else tail)

/-- Embedding of the date-filter step of `api/search.py` (the
`api/app/routers/search.py` variant is identical up to the over-fetch
multiplier, which plays no role here):

    try:
        cutoff_date = datetime.fromisoformat(published_after.replace('Z', '+00:00'))
        videos = [v for v in videos if ...][:max_videos]
    except ValueError:
        pass

A `ValueError` (from the cutoff string or from any element) skips the
assignment, leaving `videos` unchanged.  An `AttributeError` from a `None`
element timestamp is not caught here: it propagates to the endpoint's outer
`except Exception` and fails the whole request with a 500, modelled as
`Except.error`.  `published_after` itself is a query-parameter string, so
only `ValueError` can arise from the cutoff parse. -/
def api_date_filter {τ : Type} (parse : List Char → Option τ) (leq : τ → τ → Bool)
    (published_after : List Char) (max_videos : Nat) (videos : List VideoDict) :
    Except PyDateError (List VideoDict) :=
  match parse published_after with
  | none => Except.ok videos
  | some cutoff =>
    match api_filter_comprehension parse leq cutoff videos with
    | Except.error PyDateError.valueError => Except.ok videos
    | Except.error PyDateError.attributeError => Except.error PyDateError.attributeError
    | Except.ok filtered => Except.ok (filtered.take max_videos)

/-- Concrete parse function used in the C4 instances: `o` parses to 0, `c`
(the cutoff string) to 5, everything else fails. -/
def c4Parse (s : List Char) : Option Int :=
  if s = ['o'] then some 0 else if s = ['c'] then some 5 else none

/-- Concrete datetime order for the C4 instances. -/
def c4Leq (a b : Int) : Bool :=
  decide (a ≤ b)

/-- A video whose publish timestamp fails to parse. -/
def c4Bad : VideoDict :=
  { id := some ['1'], title := none, publishedAt := some ['b'], thumbnail := none }

/-- A parseable video published before the cutoff (it should be filtered
out by a working date filter). -/
def c4Out : VideoDict :=
  { id := some ['2'], title := none, publishedAt := some ['o'], thumbnail := none }

/-- A video whose publish timestamp is missing altogether (`None`). -/
def c4None : VideoDict :=
  { id := some ['3'], title := none, publishedAt := none, thumbnail := none }

theorem listContains_nil_needle (l : List Char) : listContains l [] = true := by
  cases l <;> simp [listContains, List.isPrefixOf]

theorem length_filterMap_range_of_isSome {β : Type} (n : Nat) (f : Nat → Option β)
    (h : ∀ i, i < n → (f i).isSome) :
    ((List.range n).filterMap f).length = n := by
  induction n with
  | zero => rfl
  | succ n ih =>
    rw [List.range_succ, List.filterMap_append]
    have hn := h n (Nat.lt_succ_self n)
    rcases Option.isSome_iff_exists.mp hn with ⟨b, hb⟩
    simp [List.filterMap, hb]
    exact ih fun i hi => h i (Nat.lt_succ_of_lt hi)

/-- On every transcript and keyword, the primary matcher agrees with the
specification's wording of the Keyword Matcher (boundary conditions
rephrased): one MatchResult per matching position, in transcript order. -/
theorem search_in_transcript_eq_per_spec {α : Type} (transcript : List (TranscriptSegment α))
    (keyword : List Char) :
    search_in_transcript transcript keyword = keyword_matcher_per_spec transcript keyword := by
  simp only [search_in_transcript, keyword_matcher_per_spec]
  apply List.filterMap_congr
  intro i hi
  rw [List.mem_range] at hi
  cases h : transcript[i]? with
  | none => rfl
  | some segment =>
    by_cases hc : listContains (pyLower segment.text) (pyLower keyword)
    · simp only [hc, if_true, Option.some.injEq, MatchResult.mk.injEq]
      refine ⟨trivial, trivial, ?_, ?_⟩
      · rcases Nat.eq_zero_or_pos i with h0 | h0
        · simp [h0]
        · simp [h0, Nat.pos_iff_ne_zero.mp h0]
      · by_cases hl : i = transcript.length - 1
        · simp [hl]
        · have : i < transcript.length - 1 := by omega
          simp [hl, this]
    · simp [hc]

theorem filterMap_range_getElem {σ β : Type} (g : σ → Option β) (l : List σ) :
    ((List.range l.length).filterMap fun i =>
      match l[i]? with
      | none => none
      | some x => g x) = l.filterMap g := by
  induction l with
  | nil => rfl
  | cons x xs ih =>
    rw [List.length_cons, List.range_succ_eq_map, List.filterMap_cons]
    have hhead : (match (x :: xs)[0]? with
        | none => none
        | some y => g y) = g x := by
      rw [List.getElem?_cons_zero]
    rw [List.filterMap_map]
    have hcomp : ∀ i ∈ List.range xs.length,
        ((fun i =>
          match (x :: xs)[i]? with
          | none => none
          | some y => g y) ∘ Nat.succ) i
        = (fun i =>
          match xs[i]? with
          | none => none
          | some y => g y) i := by
      intro i hi
      simp only [Function.comp_apply, List.getElem?_cons_succ]
    rw [List.filterMap_congr hcomp, ih, hhead, List.filterMap_cons]

theorem filterMap_if_eq_map_filter {σ β : Type} (p : σ → Bool) (f : σ → β) (l : List σ) :
    (l.filterMap fun x => if p x then some (f x) else none) = (l.filter p).map f := by
  induction l with
  | nil => rfl
  | cons x xs ih =>
    by_cases h : p x = true
    · simp [List.filterMap_cons, List.filter_cons, h, ih]
    · simp [List.filterMap_cons, List.filter_cons, h, ih]

/-- Projecting the primary matcher's results to their `(start, text)` pair
forgets the contexts and leaves exactly the matching segments' payloads, in
transcript order. -/
theorem search_in_transcript_proj {α : Type} (transcript : List (TranscriptSegment α))
    (keyword : List Char) :
    (search_in_transcript transcript keyword).map (fun m => (m.start, m.text))
      = (transcript.filter fun s =>
          listContains (pyLower s.text) (pyLower keyword)).map (fun s => (s.start, s.text)) := by
  simp only [search_in_transcript]
  rw [List.map_filterMap]
  refine Eq.trans (List.filterMap_congr ?_)
    (Eq.trans (filterMap_range_getElem _ _) (filterMap_if_eq_map_filter _ _ _))
  intro i hi
  cases h : transcript[i]? with
  | none => simp [h]
  | some segment =>
    by_cases hc : listContains (pyLower segment.text) (pyLower keyword) = true
    · simp [h, hc]
    · simp [h, hc]

/-- C1 (counterexample): the legacy matcher of
`youtube-transcript-searcher/app.py` emits no entry for a segment whose
text contains the (empty) keyword case-insensitively, although the claim
demands exactly one MatchResult per such segment; its entries, when it does
emit them, are bare segments with no context fields at all. -/
theorem keyword_matcher_c1_counterexample :
    search_in_transcript_yts [({ text := ['a'], start := (0 : Int) } : TranscriptSegment Int)]
      ([] : List Char) = []
    ∧ listContains (pyLower ['a']) (pyLower ([] : List Char)) = true := by
  exact ⟨rfl, rfl⟩

/-- C1 (amended): the primary matcher (duplicated in `app.py`,
`api/search.py`, `api/app/services/youtube.py` and
`backend/app/services/youtube.py`) returns exactly one MatchResult per
segment whose text contains the keyword case-insensitively, in transcript
order, with `start` and `text` from the matching segment and the adjacent
segment texts as context, empty at the borders.  The legacy
`youtube-transcript-searcher` matcher, for a non-empty keyword, instead
returns the bare matching segments themselves — the same matching segments
with the same `start` and `text` payloads, in the same order, as the
primary matcher — but with no context fields (and it returns the empty list
for an empty keyword, as the counterexample shows). -/
theorem keyword_matcher_c1_amended :
    (∀ (α : Type) (transcript : List (TranscriptSegment α)) (keyword : List Char),
        search_in_transcript transcript keyword = keyword_matcher_per_spec transcript keyword)
    ∧ (∀ (α : Type) (transcript : List (TranscriptSegment α)) (keyword : List Char),
        keyword ≠ [] →
        search_in_transcript_yts transcript keyword
          = transcript.filter (fun s => listContains (pyLower s.text) (pyLower keyword))
        ∧ (search_in_transcript_yts transcript keyword).map (fun s => (s.start, s.text))
          = (search_in_transcript transcript keyword).map (fun m => (m.start, m.text))) := by
  constructor
  · intro α transcript keyword
    exact search_in_transcript_eq_per_spec transcript keyword
  · intro α transcript keyword hk
    have hkb : keyword.isEmpty = false := by
      cases keyword
      · exact absurd rfl hk
      · rfl
    have hfilter : search_in_transcript_yts transcript keyword
        = transcript.filter fun s => listContains (pyLower s.text) (pyLower keyword) := by
      unfold search_in_transcript_yts
      rw [hkb, Bool.or_false]
      by_cases ht : transcript.isEmpty
      · rw [if_pos ht, List.isEmpty_iff.mp ht]
        rfl
      · rw [if_neg ht]
    refine ⟨hfilter, ?_⟩
    rw [hfilter, search_in_transcript_proj]

/-- Witness for C1 (amended) at a concrete transcript and non-empty
keyword. -/
theorem keyword_matcher_c1_witness :
    search_in_transcript_yts
        [({ text := ['a'], start := (1 : Int) } : TranscriptSegment Int)] ['a']
      = [({ text := ['a'], start := (1 : Int) } : TranscriptSegment Int)].filter
          (fun s => listContains (pyLower s.text) (pyLower ['a'])) :=
  (keyword_matcher_c1_amended.2 Int
    [({ text := ['a'], start := (1 : Int) } : TranscriptSegment Int)] ['a'] (by decide)).1

/-- C2 (counterexample): the claim says an empty keyword yields an empty
match list, but in Python the empty string is a substring of every string,
so the matcher emits one MatchResult for every segment of a non-empty
transcript. -/
theorem keyword_matcher_c2_counterexample :
    search_in_transcript [({ text := ['a'], start := (0 : Int) } : TranscriptSegment Int)]
      ([] : List Char) ≠ [] := by
  decide

/-- C2 (amended): an empty transcript always yields the empty list; an empty
keyword yields one MatchResult per segment in the duplicated primary matcher
(the empty string matches every segment text), while only the legacy
`youtube-transcript-searcher` matcher returns the empty list for an empty
keyword (it also returns the empty list for an empty transcript); no case
raises an error (all the functions are total). -/
theorem keyword_matcher_c2_amended :
    (∀ (α : Type) (keyword : List Char),
        search_in_transcript ([] : List (TranscriptSegment α)) keyword = [])
    ∧ (∀ (α : Type) (transcript : List (TranscriptSegment α)),
        (search_in_transcript transcript []).length = transcript.length)
    ∧ (∀ (α : Type) (transcript : List (TranscriptSegment α)),
        search_in_transcript_yts transcript [] = [])
    ∧ (∀ (α : Type) (keyword : List Char),
        search_in_transcript_yts ([] : List (TranscriptSegment α)) keyword = []) := by
  refine ⟨fun α keyword => rfl, fun α transcript => ?_, fun α transcript => ?_, fun α k => ?_⟩
  · simp only [search_in_transcript, pyLower, List.map_nil]
    apply length_filterMap_range_of_isSome
    intro i hi
    have : transcript[i]? = some (transcript.get ⟨i, hi⟩) := List.getElem?_eq_getElem hi
    simp [this, listContains_nil_needle]
  · simp [search_in_transcript_yts]
  · simp [search_in_transcript_yts]

/-- C9: the Keyword Matcher is deterministic: two invocations on equal
transcripts and equal keywords return identical ordered match lists (it is
a pure function of its two arguments). -/
theorem keyword_matcher_c9 {α : Type} (t1 t2 : List (TranscriptSegment α))
    (k1 k2 : List Char) (ht : t1 = t2) (hk : k1 = k2) :
    search_in_transcript t1 k1 = search_in_transcript t2 k2 := by
  subst ht; subst hk; rfl

/-- C3: every SearchResult emitted by the aggregation loop has a non-empty
`matches` list, and that list is exactly the matcher's output on the
result's own video, so a video whose transcript yields zero keyword matches
never appears in the returned results. -/
theorem orchestrator_c3 {α : Type}
    (get_transcript : Option (List Char) → List (TranscriptSegment α))
    (videos : List VideoDict) (keyword : List Char) (r : SearchResultR α)
    (hr : r ∈ collect_results get_transcript videos keyword) :
    r.matches_list ≠ [] ∧ r.matches_list = search_in_transcript (get_transcript r.video_id) keyword := by
  rcases List.mem_filterMap.mp hr with ⟨video, hv, hf⟩
  by_cases h1 : (get_transcript video.id).isEmpty
  · simp [h1] at hf
  · by_cases h2 : (search_in_transcript (get_transcript video.id) keyword).isEmpty
    · simp [h1, h2] at hf
    · simp only [if_neg h1, if_neg h2, Option.some.injEq] at hf
      subst hf
      have hne : search_in_transcript (get_transcript video.id) keyword ≠ [] := by
        intro h
        rw [h] at h2
        exact h2 rfl
      exact ⟨hne, rfl⟩

/-- Witness for C3: a concrete one-video request whose single result
satisfies the invariant. -/
theorem orchestrator_c3_witness :
    ({ video_id := some ['v']
     , title := none
     , published_at := none
     , thumbnail := none
     , matches_list :=
         [{ start := (0 : Int), text := ['a'], context_before := [], context_after := [] }]
     } : SearchResultR Int).matches_list ≠ [] :=
  (orchestrator_c3 (fun _ => [{ text := ['a'], start := (0 : Int) }])
    [{ id := some ['v'], title := none, publishedAt := none, thumbnail := none }] ['a'] _
    (by decide)).1

/-- Witness for C9 at a concrete transcript and keyword. -/
theorem keyword_matcher_c9_witness :
    search_in_transcript [({ text := ['a'], start := (0 : Int) } : TranscriptSegment Int)] ['a']
      = search_in_transcript [({ text := ['a'], start := (0 : Int) } : TranscriptSegment Int)]
          ['a'] :=
  keyword_matcher_c9 _ _ ['a'] ['a'] rfl rfl

/-- C10: an empty (falsy) channel reference makes the Channel Resolver
return None immediately, with no name-lookup query issued (the recorded
query list is empty) and independently of the remote lookup function. -/
theorem channel_resolver_c10 (lookup : List Char → Option (List Char)) :
    resolve_channel_id lookup [] = (none, []) :=
  rfl

/-- C6: a 24-character input of the form `UC` followed by 22 URL-safe
characters resolves to itself, with no name-lookup query issued and
independently of the remote lookup function. -/
theorem channel_resolver_c6 (lookup : List Char → Option (List Char)) (s : List Char)
    (hlen : s.length = 24) (hpre : s.take 2 = ['U', 'C'])
    (hsafe : (s.drop 2).all isUrlSafe = true) :
    resolve_channel_id lookup s = (some s, []) := by
  have hne : s.isEmpty = false := by
    cases s
    · simp at hlen
    · rfl
  have hcore : isChannelIdCore s = true := by
    simp [isChannelIdCore, hlen, hpre, hsafe]
  have hpat : matches_channel_id_pattern s = true := by
    simp [matches_channel_id_pattern, hcore]
  simp [resolve_channel_id, hne, hpat]

/-- Witness for C6 at the concrete id `UC` + 22 copies of `a`. -/
theorem channel_resolver_c6_witness :
    resolve_channel_id (fun _ => none) (['U', 'C'] ++ List.replicate 22 'a')
      = (some (['U', 'C'] ++ List.replicate 22 'a'), []) :=
  channel_resolver_c6 _ _ (by decide) (by decide) (by decide)

/-- C7 (counterexample): in the Streamlit variant, an HTTP failure of the
remote search is re-raised as a `YouTubeChannelError`, not swallowed into
None, refuting the claim that remote-call failures are swallowed. -/
theorem name_lookup_c7_counterexample :
    resolve_name_to_channel_id_sync ['k'] SearchOutcome.httpError
      = Except.error ResolveError.channelError :=
  rfl

/-- C7 (amended): in the service variants the lookup returns the first
item's channel id, None when the search yields no items, and swallows every
remote-call failure to None (they have no API-key check of their own: the
key is validated by the endpoints before the lookup runs).  In the
Streamlit variant a missing (empty) API key raises a configuration error,
a search with no items returns None, and remote-call failures are raised
as `YouTubeChannelError` rather than swallowed. -/
theorem name_lookup_c7_amended :
    (∀ channels : List (List Char),
        resolve_name_to_channel_id_service (SearchOutcome.items channels) = channels.head?)
    ∧ resolve_name_to_channel_id_service SearchOutcome.httpError = none
    ∧ resolve_name_to_channel_id_service SearchOutcome.otherError = none
    ∧ (∀ outcome : SearchOutcome,
        resolve_name_to_channel_id_sync [] outcome = Except.error ResolveError.configError)
    ∧ (∀ (key : List Char) (channels : List (List Char)), key ≠ [] →
        resolve_name_to_channel_id_sync key (SearchOutcome.items channels)
          = Except.ok channels.head?)
    ∧ (∀ key : List Char, key ≠ [] →
        resolve_name_to_channel_id_sync key SearchOutcome.httpError
            = Except.error ResolveError.channelError
        ∧ resolve_name_to_channel_id_sync key SearchOutcome.otherError
            = Except.error ResolveError.channelError) := by
  refine ⟨fun channels => ?_, rfl, rfl, fun outcome => rfl, ?_, ?_⟩
  · cases channels <;> rfl
  · intro key channels hk
    cases key with
    | nil => exact absurd rfl hk
    | cons c k => cases channels <;> rfl
  · intro key hk
    cases key with
    | nil => exact absurd rfl hk
    | cons c k => exact ⟨rfl, rfl⟩

/-- Witness for C7 (amended) at a concrete key and search outcome. -/
theorem name_lookup_c7_witness :
    resolve_name_to_channel_id_sync ['k'] (SearchOutcome.items [['c']])
      = Except.ok (some ['c']) :=
  name_lookup_c7_amended.2.2.2.2.1 ['k'] [['c']] (by decide)

theorem fetch_all_go_take {β : Type} (max_videos : Nat) :
    ∀ (pages : List (List β)) (acc : List β),
      (fetch_all_video_details_go max_videos pages acc).take max_videos
        = (acc ++ pages.flatten).take max_videos := by
  intro pages
  induction pages with
  | nil => intro acc; simp [fetch_all_video_details_go]
  | cons page rest ih =>
    intro acc
    simp only [fetch_all_video_details_go, List.flatten_cons]
    by_cases h1 : max_videos ≤ (acc ++ page).length
    · rw [if_pos h1, ← List.append_assoc]
      exact (List.take_append_of_le_length h1).symm
    · rw [if_neg h1]
      by_cases h2 : rest.isEmpty
      · rw [if_pos h2]
        have hr : rest = [] := List.isEmpty_iff.mp h2
        simp [hr]
      · rw [if_neg h2, ih]
        rw [← List.append_assoc]

theorem fetch_videos_go_spec (max_videos : Nat) :
    ∀ (n : Nat) (remaining : List RawItem), remaining.length ≤ n →
      ∀ (videos : List VideoDict), videos.length ≤ max_videos →
        fetch_videos_go max_videos remaining videos
          = videos ++ (remaining.map mapRawItem).take (max_videos - videos.length) := by
  intro n
  induction n with
  | zero =>
    intro remaining hr videos hv
    have hrem : remaining = [] := List.length_eq_zero.mp (Nat.le_zero.mp hr)
    subst hrem
    rw [fetch_videos_go]
    by_cases h1 : max_videos ≤ videos.length
    · rw [dif_pos h1]
      have h0 : max_videos - videos.length = 0 := by omega
      simp [h0]
    · rw [dif_neg h1, dif_pos (by simp)]
      simp
  | succ n ih =>
    intro remaining hr videos hv
    rw [fetch_videos_go]
    by_cases h1 : max_videos ≤ videos.length
    · rw [dif_pos h1]
      have h0 : max_videos - videos.length = 0 := by omega
      simp [h0]
    · rw [dif_neg h1]
      set k := min 50 (max_videos - videos.length) with hkdef
      have hk1 : 1 ≤ k := le_min (by omega) (by omega)
      have hkle : k ≤ max_videos - videos.length := min_le_right _ _
      by_cases h2 : (remaining.drop k).isEmpty
      · rw [dif_pos h2]
        have hd0 : (remaining.drop k).length = 0 := by
          rw [List.isEmpty_iff.mp h2]
          rfl
        have hre : remaining.length ≤ k := by
          have := List.length_drop k remaining
          omega
        rw [List.take_of_length_le hre,
          List.take_of_length_le (by rw [List.length_map]; omega)]
      · rw [dif_neg h2]
        have hrk : k ≤ remaining.length := by
          by_contra hc
          push_neg at hc
          exact h2 (by simp [List.drop_eq_nil_of_le (le_of_lt hc)])
        have hdl : (remaining.drop k).length ≤ n := by
          have := List.length_drop k remaining
          omega
        have hlen2 :
            (videos ++ (remaining.take k).map mapRawItem).length = videos.length + k := by
          rw [List.length_append, List.length_map, List.length_take, min_eq_left hrk]
        have hvl : (videos ++ (remaining.take k).map mapRawItem).length ≤ max_videos := by
          rw [hlen2]; omega
        rw [ih _ hdl _ hvl, hlen2, List.append_assoc]
        congr 1
        have hsplit : max_videos - videos.length
            = k + (max_videos - (videos.length + k)) := by
          omega
        rw [hsplit, List.take_add]
        congr 1
        · rw [List.map_take]
        · rw [List.map_drop]

theorem fetch_videos_spec (max_videos : Nat) (stream : List RawItem) :
    fetch_videos max_videos stream = (stream.map mapRawItem).take max_videos := by
  have h := fetch_videos_go_spec max_videos stream.length stream le_rfl [] (Nat.zero_le _)
  simpa [fetch_videos] using h

theorem api_filter_comprehension_valueError {τ : Type} (parse : List Char → Option τ)
    (leq : τ → τ → Bool) (cutoff : τ) (videos : List VideoDict)
    (hall : ∀ v ∈ videos, v.publishedAt ≠ none)
    (hex : ∃ v ∈ videos, ∃ s, v.publishedAt = some s ∧ parse s = none) :
    api_filter_comprehension parse leq cutoff videos = Except.error PyDateError.valueError := by
  induction videos with
  | nil => rcases hex with ⟨v, hv, _⟩; cases hv
  | cons v rest ih =>
    cases hps : v.publishedAt with
    | none => exact absurd hps (hall v (List.mem_cons_self _ _))
    | some s =>
      cases hp : parse s with
      | none => simp [api_filter_comprehension, hps, hp]
      | some pub =>
        have hex2 : ∃ w ∈ rest, ∃ t, w.publishedAt = some t ∧ parse t = none := by
          rcases hex with ⟨w, hw, t, hwt, hpt⟩
          rcases List.mem_cons.mp hw with h1 | h1
          · subst h1
            rw [hps] at hwt
            rcases Option.some.inj hwt with rfl
            rw [hp] at hpt
            cases hpt
          · exact ⟨w, h1, t, hwt, hpt⟩
        have hall2 : ∀ w ∈ rest, w.publishedAt ≠ none := fun w hw =>
          hall w (List.mem_cons_of_mem _ hw)
        simp [api_filter_comprehension, hps, hp, ih hall2 hex2]

theorem api_filter_comprehension_attrError {τ : Type} (parse : List Char → Option τ)
    (leq : τ → τ → Bool) (cutoff : τ) (videos : List VideoDict)
    (hall : ∀ v ∈ videos, ∀ s, v.publishedAt = some s → (parse s).isSome)
    (hex : ∃ v ∈ videos, v.publishedAt = none) :
    api_filter_comprehension parse leq cutoff videos
      = Except.error PyDateError.attributeError := by
  induction videos with
  | nil => rcases hex with ⟨v, hv, _⟩; cases hv
  | cons v rest ih =>
    cases hps : v.publishedAt with
    | none => simp [api_filter_comprehension, hps]
    | some s =>
      have hsome := hall v (List.mem_cons_self _ _) s hps
      cases hp : parse s with
      | none =>
        rw [hp] at hsome
        cases hsome
      | some pub =>
        have hex2 : ∃ w ∈ rest, w.publishedAt = none := by
          rcases hex with ⟨w, hw, hwn⟩
          rcases List.mem_cons.mp hw with h1 | h1
          · subst h1
            rw [hps] at hwn
            cases hwn
          · exact ⟨w, h1, hwn⟩
        have hall2 : ∀ w ∈ rest, ∀ t, w.publishedAt = some t → (parse t).isSome :=
          fun w hw => hall w (List.mem_cons_of_mem _ hw)
        simp [api_filter_comprehension, hps, hp, ih hall2 hex2]

theorem truthyStr_getD_ne_nil (o : Option (List Char)) (h : truthyStr o = true) :
    o.getD [] ≠ [] := by
  cases o with
  | none => cases h
  | some s =>
    simp only [Option.getD_some]
    intro hs
    subst hs
    exact absurd h (by decide)

/-- C5: the Paginated Video Lister never returns more than the budget.  The
Streamlit lister equals the first `budget` items of the concatenation of
all fetched pages, so it is truncated to the budget even when the last
fetched page overshoots it; the service lister equals the first `budget`
items of the playlist stream.  Both are therefore bounded by the budget. -/
theorem paginated_lister_c5 :
    (∀ (β : Type) (max_videos : Nat) (pages : List (List β)),
        fetch_all_video_details max_videos pages = pages.flatten.take max_videos
        ∧ (fetch_all_video_details max_videos pages).length ≤ max_videos)
    ∧ (∀ (max_videos : Nat) (stream : List RawItem),
        fetch_videos max_videos stream = (stream.map mapRawItem).take max_videos
        ∧ (fetch_videos max_videos stream).length ≤ max_videos) := by
  constructor
  · intro β max_videos pages
    have h : fetch_all_video_details max_videos pages = pages.flatten.take max_videos := by
      unfold fetch_all_video_details
      rw [fetch_all_go_take]
      simp
    refine ⟨h, ?_⟩
    rw [h]
    exact List.length_take_le _ _
  · intro max_videos stream
    have h := fetch_videos_spec max_videos stream
    refine ⟨h, ?_⟩
    rw [h]
    exact List.length_take_le _ _

/-- C8 (counterexample): the service lister keeps a page item whose video
id is missing, returning a video dict with `id = None`, refuting the claim
that such items are dropped and that every returned video has a present
video id. -/
theorem lister_c8_counterexample :
    (fetch_videos 5 [{ videoId := none, publishedAt := none, title := some ['t']
                     , thumbnail := none }]).map VideoDict.id = [none] := by
  rw [fetch_videos_spec]
  decide

/-- C8 (amended): the Streamlit page fetcher drops every item whose video
id, publish timestamp or title is missing or empty, so each detail triple
it returns has all three components non-empty; the service-variant
`fetch_videos` instead appends every page item verbatim, with missing
fields carried along as `None`. -/
theorem lister_c8_amended :
    (∀ (items : List RawItem) (d : VideoDetail), d ∈ fetch_video_details_page items →
        d.1 ≠ [] ∧ d.2.1 ≠ [] ∧ d.2.2 ≠ [])
    ∧ (∀ item : RawItem,
        (mapRawItem item).id = item.videoId
        ∧ (mapRawItem item).publishedAt = item.publishedAt
        ∧ (mapRawItem item).title = item.title) := by
  constructor
  · intro items d hd
    rcases List.mem_filterMap.mp hd with ⟨item, hi, hf⟩
    by_cases hc : truthyStr item.videoId && truthyStr item.publishedAt && truthyStr item.title
    · rw [if_pos hc] at hf
      rcases Option.some.inj hf with rfl
      simp only [Bool.and_eq_true] at hc
      obtain ⟨⟨hv, hp⟩, ht⟩ := hc
      exact ⟨truthyStr_getD_ne_nil _ hv, truthyStr_getD_ne_nil _ hp, truthyStr_getD_ne_nil _ ht⟩
    · rw [if_neg hc] at hf
      cases hf
  · intro item
    exact ⟨rfl, rfl, rfl⟩

/-- Witness for C8 (amended) at a concrete fully-populated page item. -/
theorem lister_c8_witness :
    (['v'], ['p'], ['t']).1 ≠ [] ∧ (['v'], ['p'], ['t']).2.1 ≠ [] ∧ (['v'], ['p'], ['t']).2.2 ≠ [] :=
  lister_c8_amended.1
    [{ videoId := some ['v'], publishedAt := some ['p'], title := some ['t']
     , thumbnail := none }]
    (['v'], ['p'], ['t']) (by decide)

/-- C4 (counterexample): in the API variants a single unparseable (but
present) publish timestamp makes the whole filter comprehension raise
`ValueError`; the error is caught and the video list is left unchanged, so
the unparseable video is not excluded, no warning is recorded, and the
parseable video published before the cutoff is not filtered out either. -/
theorem date_filter_c4_counterexample :
    api_date_filter c4Parse c4Leq ['c'] 10 [c4Bad, c4Out] = Except.ok [c4Bad, c4Out]
    ∧ c4Parse (c4Bad.publishedAt.getD []) = none
    ∧ c4Parse ['c'] = some 5
    ∧ c4Parse (c4Out.publishedAt.getD []) = some 0
    ∧ c4Leq 5 0 = false := by
  exact ⟨rfl, rfl, rfl, rfl, rfl⟩

/-- C4 (amended): in the Streamlit variant a video whose publish timestamp
fails to parse is excluded from the surviving list and turned into a
per-video warning, while every other video is still filtered on the date
window with the input order preserved, and the filter step is a total
function (it cannot fail the request).  In the API variants, when every
timestamp is present but at least one fails to parse, the `ValueError`
aborts the whole filter comprehension and is caught, leaving the list
entirely unfiltered (no video excluded, no per-video warning) without
failing the request; when the cutoff parses, all present timestamps parse
and some video's timestamp is missing (`None`), the `AttributeError`
escapes the `except ValueError` handler and the whole request fails. -/
theorem date_filter_c4_amended :
    (∀ (τ : Type) (parse : List Char → Option τ) (leq : τ → τ → Bool)
        (start_date end_date : τ) (vids : List VideoDetail),
        (app_date_filter parse leq start_date end_date vids).1
          = vids.filter (fun v =>
              match parse v.2.1 with
              | some pub => leq start_date pub && leq pub end_date
              | none => false)
        ∧ (app_date_filter parse leq start_date end_date vids).2
          = (vids.filter fun v => (parse v.2.1).isNone).map (fun v => (v.1, v.2.1)))
    ∧ (∀ (τ : Type) (parse : List Char → Option τ) (leq : τ → τ → Bool)
        (published_after : List Char) (max_videos : Nat) (videos : List VideoDict),
        (∀ v ∈ videos, v.publishedAt ≠ none) →
        (∃ v ∈ videos, ∃ s, v.publishedAt = some s ∧ parse s = none) →
        api_date_filter parse leq published_after max_videos videos = Except.ok videos)
    ∧ (∀ (τ : Type) (parse : List Char → Option τ) (leq : τ → τ → Bool)
        (published_after : List Char) (max_videos : Nat) (videos : List VideoDict),
        (parse published_after).isSome →
        (∀ v ∈ videos, ∀ s, v.publishedAt = some s → (parse s).isSome) →
        (∃ v ∈ videos, v.publishedAt = none) →
        api_date_filter parse leq published_after max_videos videos
          = Except.error PyDateError.attributeError) := by
  refine ⟨?_, ?_, ?_⟩
  · intro τ parse leq start_date end_date vids
    induction vids with
    | nil => exact ⟨rfl, rfl⟩
    | cons v rest ih =>
      cases hp : parse v.2.1 with
      | none =>
        simp only [app_date_filter, hp, List.filter_cons]
        simp [ih.1, ih.2]
      | some pub =>
        simp only [app_date_filter, hp, List.filter_cons]
        by_cases hin : (leq start_date pub && leq pub end_date) = true
        · simp [hin, ih.1, ih.2]
        · simp [hin, ih.1, ih.2]
  · intro τ parse leq published_after max_videos videos hall hex
    unfold api_date_filter
    cases hc : parse published_after with
    | none => rfl
    | some cutoff =>
      show (match api_filter_comprehension parse leq cutoff videos with
            | Except.error PyDateError.valueError => Except.ok videos
            | Except.error PyDateError.attributeError => Except.error PyDateError.attributeError
            | Except.ok filtered => Except.ok (filtered.take max_videos))
          = Except.ok videos
      rw [api_filter_comprehension_valueError parse leq cutoff videos hall hex]
  · intro τ parse leq published_after max_videos videos hcut hall hex
    obtain ⟨cutoff, hc⟩ := Option.isSome_iff_exists.mp hcut
    unfold api_date_filter
    rw [hc]
    show (match api_filter_comprehension parse leq cutoff videos with
          | Except.error PyDateError.valueError => Except.ok videos
          | Except.error PyDateError.attributeError => Except.error PyDateError.attributeError
          | Except.ok filtered => Except.ok (filtered.take max_videos))
        = Except.error PyDateError.attributeError
    rw [api_filter_comprehension_attrError parse leq cutoff videos hall hex]

/-- Witness for C4 (amended): a concrete list whose only video has a `None`
publish timestamp makes the API filter fail the request. -/
theorem date_filter_c4_witness :
    api_date_filter c4Parse c4Leq ['c'] 10 [c4None]
      = Except.error PyDateError.attributeError :=
  date_filter_c4_amended.2.2 Int c4Parse c4Leq ['c'] 10 [c4None] (by decide)
    (by
      intro v hv s hs
      rw [List.mem_singleton] at hv
      subst hv
      simp [c4None] at hs)
    ⟨c4None, by decide, rfl⟩
